import Mathlib

/-!
Verification of the command-parser repository: a character-by-character
tokenizing state machine turning a raw chat line into a structured command
(name, positional arguments, flag set, key/value parameters), configured by a
command-prefix character and an option-prefix character.

The embedding mirrors `src/parser.rs` (`Parser::parse`), `src/command.rs`
(`Command`) and `src/error.rs` (`ParseError`).  Rust's `HashSet<String>` is
modelled as a duplicate-free insertion list (insert is a no-op when the
element is present, exactly `HashSet::insert`'s membership semantics), and
`HashMap<String, String>` as an association list whose insert overwrites the
value at an existing key (`HashMap::insert`'s last-write-wins semantics).
-/

namespace CommandParser

/-- `ParseError` from `src/error.rs`: each variant carries the zero-based
cursor position and the offending character. -/
inductive ParseError where
  | PrefixError : Nat → Char → ParseError
  | NameError : Nat → Char → ParseError
  | EscapeError : Nat → Char → ParseError
deriving DecidableEq, Repr

/-- The states of the parsing state machine, `ParseState` in `src/parser.rs`. -/
inductive ParseState where
  | Prefix
  | Name
  | Default
  | Argument
  | LongArgument
  | EscapeLongArg
  | Option
  | ParamConnector
  | ParamVal
  | ParamLongVal
  | EscapeLongParamVal
deriving DecidableEq, Repr

/-- `Command` from `src/command.rs`.  `pfx` and `optPfx` embed the Rust fields
`prefix` and `option_prefix`; `options` models the `HashSet` and `parameters`
the `HashMap` as explained in the file header. -/
structure Command where
  pfx : Char
  optPfx : Char
  name : String
  arguments : List String
  options : List String
  parameters : List (String × String)
deriving DecidableEq, Repr

/-- `Parser` from `src/parser.rs`: the two configuration characters
`prefix` (here `pfx`) and `option_prefix` (here `optPfx`). -/
structure Parser where
  pfx : Char
  optPfx : Char
deriving DecidableEq, Repr

/-- `HashSet::insert` semantics on the list model: adding an element already
present leaves the set unchanged. -/
def insertSet (s : List String) (x : String) : List String :=
  if x ∈ s then s else s ++ [x]

/-- `HashMap::insert` semantics on the association-list model: overwrite the
value at an existing key, otherwise append the new binding. -/
def insertMap (m : List (String × String)) (k v : String) : List (String × String) :=
  match m with
  | [] => [(k, v)]
  | (k0, v0) :: rest => if k0 = k then (k, v) :: rest else (k0, v0) :: insertMap rest k v

/-- `HashMap::get` on the association-list model. -/
def lookupMap (m : List (String × String)) (k : String) : Option String :=
  match m with
  | [] => none
  | (k0, v0) :: rest => if k0 = k then some v0 else lookupMap rest k

/-- The mutable locals of one `Parser::parse` call: the four result
accumulators plus the current state, token buffer and parameter-key buffer. -/
structure Acc where
  name : String
  arguments : List String
  options : List String
  parameters : List (String × String)
  state : ParseState
  buffer : String
  keyBuffer : String
deriving DecidableEq, Repr

/-- One iteration of the `for (cursor, c) in raw.chars().enumerate()` loop of
`Parser::parse`: dispatch on the current state exactly as the Rust `match`,
producing either an updated accumulator or an early-return error. -/
def step (p : Parser) (a : Acc) (cursor : Nat) (c : Char) : Except ParseError Acc :=
  match a.state with
  | ParseState.Prefix =>
    if c = p.pfx then Except.ok { a with state := ParseState.Name }
    else Except.error (ParseError.PrefixError cursor c)
  | ParseState.Name =>
    if c = ' ' then
      if cursor = 1 then Except.error (ParseError.NameError cursor c)
      else Except.ok { a with state := ParseState.Default }
    else Except.ok { a with name := a.name.push c }
  | ParseState.Argument =>
    if c = ' ' then
      Except.ok { a with arguments := a.arguments ++ [a.buffer], buffer := "",
                         state := ParseState.Default }
    else Except.ok { a with buffer := a.buffer.push c }
  | ParseState.LongArgument =>
    if c = '"' then
      Except.ok { a with arguments := a.arguments ++ [a.buffer], buffer := "",
                         state := ParseState.Default }
    else if c = '\\' then Except.ok { a with state := ParseState.EscapeLongArg }
    else Except.ok { a with buffer := a.buffer.push c }
  | ParseState.EscapeLongArg =>
    if c = '"' ∨ c = '\\' then
      Except.ok { a with state := ParseState.LongArgument, buffer := a.buffer.push c }
    else Except.error (ParseError.EscapeError cursor c)
  | ParseState.Option =>
    if c = ' ' then
      Except.ok { a with options := insertSet a.options a.buffer, buffer := "",
                         state := ParseState.Default }
    else if c = ':' then
      Except.ok { a with keyBuffer := a.buffer, buffer := "",
                         state := ParseState.ParamConnector }
    else Except.ok { a with buffer := a.buffer.push c }
  | ParseState.ParamConnector =>
    if c = '"' then Except.ok { a with state := ParseState.ParamLongVal }
    else if c = ' ' then
      Except.ok { a with parameters := insertMap a.parameters a.keyBuffer a.buffer,
                         keyBuffer := "", buffer := "", state := ParseState.Default }
    else Except.ok { a with state := ParseState.ParamVal, buffer := a.buffer.push c }
  | ParseState.ParamVal =>
    if c = ' ' then
      Except.ok { a with parameters := insertMap a.parameters a.keyBuffer a.buffer,
                         keyBuffer := "", buffer := "", state := ParseState.Default }
    else Except.ok { a with buffer := a.buffer.push c }
  | ParseState.ParamLongVal =>
    if c = '"' then
      Except.ok { a with parameters := insertMap a.parameters a.keyBuffer a.buffer,
                         keyBuffer := "", buffer := "", state := ParseState.Default }
    else if c = '\\' then Except.ok { a with state := ParseState.EscapeLongParamVal }
    else Except.ok { a with buffer := a.buffer.push c }
  | ParseState.EscapeLongParamVal =>
    if c = '"' ∨ c = '\\' then
      Except.ok { a with state := ParseState.ParamLongVal, buffer := a.buffer.push c }
    else Except.error (ParseError.EscapeError cursor c)
  | ParseState.Default =>
    if c = ' ' then Except.ok a
    else if c = '"' then Except.ok { a with state := ParseState.LongArgument }
    else if c = p.optPfx then Except.ok { a with state := ParseState.Option }
    else Except.ok { a with state := ParseState.Argument, buffer := a.buffer.push c }

/-- The loop of `Parser::parse`, folded over the remaining characters with the
running cursor; when the stream is exhausted the `Command` is assembled from
the committed accumulators only, exactly as the final `Ok(Command .. )`. -/
def Parser.parseFrom (p : Parser) : List Char → Nat → Acc → Except ParseError Command
  | [], _, a =>
    Except.ok (Command.mk p.pfx p.optPfx a.name a.arguments a.options a.parameters)
  | c :: cs, n, a =>
    match step p a n c with
    | Except.error e => Except.error e
    | Except.ok a2 => p.parseFrom cs (n + 1) a2

/-- The initial locals of `Parser::parse`: everything empty, state `Prefix`. -/
def initAcc : Acc :=
  Acc.mk "" [] [] [] ParseState.Prefix "" ""

/-- `Parser::parse`: run the state machine over the characters of `raw`
starting at cursor 0. -/
def Parser.parse (p : Parser) (raw : String) : Except ParseError Command :=
  p.parseFrom raw.data 0 initAcc

/-- Invariant tying the accumulated name to the cursor: the machine is in the
`Prefix` state only at cursor 0, is in the `Name` state with a still-empty
name only at cursor 1, and in every state past `Name` the name is non-empty. -/
def nameInv (a : Acc) (n : Nat) : Prop :=
  (a.state = ParseState.Prefix → n = 0) ∧
  (a.state = ParseState.Name → a.name = "" → n = 1) ∧
  (a.state ≠ ParseState.Prefix → a.state ≠ ParseState.Name → a.name ≠ "")

/-- Invariant for a parser whose option prefix is the quote character: the
option and parameter states are never entered, and no option or parameter is
ever recorded. -/
def noOptInv (a : Acc) : Prop :=
  a.state ≠ ParseState.Option ∧
  a.state ≠ ParseState.ParamConnector ∧
  a.state ≠ ParseState.ParamVal ∧
  a.state ≠ ParseState.ParamLongVal ∧
  a.state ≠ ParseState.EscapeLongParamVal ∧
  a.options = [] ∧
  a.parameters = []

/-- Pushing a character onto a string never yields the empty string. -/
theorem push_ne_empty (s : String) (c : Char) : s.push c ≠ "" := by
  intro h
  have hdata : s.data ++ [c] = [] := congrArg String.data h
  simp at hdata

/-- Inserting a binding and looking up its key returns the inserted value:
the association-list model of `HashMap::insert` is last-write-wins. -/
theorem lookupMap_insertMap (m : List (String × String)) (k v : String) :
    lookupMap (insertMap m k v) k = some v := by
  induction m with
  | nil => simp [insertMap, lookupMap]
  | cons hd tl ih =>
    obtain ⟨k0, v0⟩ := hd
    by_cases h : k0 = k
    · simp [insertMap, lookupMap, h]
    · simp [insertMap, lookupMap, h, ih]

/-- One step of the machine preserves the name/cursor invariant. -/
theorem step_nameInv (p : Parser) (a a2 : Acc) (n : Nat) (c : Char)
    (hJ : nameInv a n) (h : step p a n c = Except.ok a2) : nameInv a2 (n + 1) := by
  obtain ⟨nm, args, os, ps, st, buf, kb⟩ := a
  obtain ⟨h1, h2, h3⟩ := hJ
  cases st
  case Prefix =>
    have hn : n = 0 := h1 rfl
    dsimp only [step] at h
    split at h
    · injection h with h
      subst h
      exact ⟨fun hx => (nomatch hx), fun _ _ => by omega, fun _ hN => absurd rfl hN⟩
    · exact (Except.noConfusion h)
  case Name =>
    dsimp only [step] at h
    split at h
    · split at h
      · exact (Except.noConfusion h)
      · rename_i hn1
        injection h with h
        subst h
        refine ⟨fun hx => (nomatch hx), fun hx => (nomatch hx), fun _ _ hnm => ?_⟩
        exact hn1 (h2 rfl hnm)
    · injection h with h
      subst h
      exact ⟨fun hx => (nomatch hx), fun _ hnm => absurd hnm (push_ne_empty nm c),
        fun _ hN => absurd rfl hN⟩
  all_goals
    have hnm : nm ≠ "" := h3 (fun hx => nomatch hx) (fun hx => nomatch hx)
  all_goals
    dsimp only [step] at h
    split at h <;> try split at h <;> try split at h
  all_goals
    first
    | exact (Except.noConfusion h)
    | (injection h with h; subst h;
       exact ⟨fun hx => (nomatch hx), fun hx => (nomatch hx), fun _ _ => hnm⟩)

/-- Running the loop from an accumulator satisfying the name/cursor invariant:
a successful parse can only deliver an empty name when fewer than two
characters were ever consumed. -/
theorem parseFrom_name_bound (p : Parser) (l : List Char) :
    ∀ (n : Nat) (a : Acc) (cmd : Command), nameInv a n →
      p.parseFrom l n a = Except.ok cmd → cmd.name = "" → n + l.length ≤ 1 := by
  induction l with
  | nil =>
    intro n a cmd hJ h hname
    obtain ⟨h1, h2, h3⟩ := hJ
    simp only [Parser.parseFrom] at h
    injection h with h
    subst h
    simp only [List.length_nil, Nat.add_zero]
    by_cases hP : a.state = ParseState.Prefix
    · have := h1 hP
      omega
    · by_cases hN : a.state = ParseState.Name
      · exact le_of_eq (h2 hN hname)
      · exact absurd hname (h3 hP hN)
  | cons c cs ih =>
    intro n a cmd hJ h hname
    simp only [Parser.parseFrom] at h
    cases hs : step p a n c with
    | error e =>
      rw [hs] at h
      exact (Except.noConfusion h)
    | ok a2 =>
      rw [hs] at h
      have hb := ih (n + 1) a2 cmd (step_nameInv p a a2 n c hJ hs) h hname
      simp only [List.length_cons]
      omega

/-- One step of a machine whose option prefix is `"` preserves the
no-option/no-parameter invariant: the quote rule fires before the
option-prefix rule in the `Default` state, so the `Option` branch is dead. -/
theorem step_noOptInv (p : Parser) (hq : p.optPfx = '"') (a a2 : Acc) (n : Nat) (c : Char)
    (hJ : noOptInv a) (h : step p a n c = Except.ok a2) : noOptInv a2 := by
  obtain ⟨nm, args, os, ps, st, buf, kb⟩ := a
  obtain ⟨hO, hPC, hPV, hPLV, hE, hos, hps⟩ := hJ
  cases st
  case Option => exact absurd rfl hO
  case ParamConnector => exact absurd rfl hPC
  case ParamVal => exact absurd rfl hPV
  case ParamLongVal => exact absurd rfl hPLV
  case EscapeLongParamVal => exact absurd rfl hE
  case Default =>
    dsimp only [step] at h
    split at h
    · injection h with h
      subst h
      exact ⟨fun hx => (nomatch hx), fun hx => (nomatch hx), fun hx => (nomatch hx),
        fun hx => (nomatch hx), fun hx => (nomatch hx), hos, hps⟩
    · split at h
      · injection h with h
        subst h
        exact ⟨fun hx => (nomatch hx), fun hx => (nomatch hx), fun hx => (nomatch hx),
          fun hx => (nomatch hx), fun hx => (nomatch hx), hos, hps⟩
      · split at h
        · rename_i hc2 hc3
          exact absurd (hc3.trans hq) hc2
        · injection h with h
          subst h
          exact ⟨fun hx => (nomatch hx), fun hx => (nomatch hx), fun hx => (nomatch hx),
            fun hx => (nomatch hx), fun hx => (nomatch hx), hos, hps⟩
  all_goals
    dsimp only [step] at h
    split at h <;> try split at h <;> try split at h
  all_goals
    first
    | exact (Except.noConfusion h)
    | (injection h with h; subst h;
       exact ⟨fun hx => (nomatch hx), fun hx => (nomatch hx), fun hx => (nomatch hx),
         fun hx => (nomatch hx), fun hx => (nomatch hx), hos, hps⟩)

/-- Running the loop with option prefix `"` from an accumulator satisfying the
no-option invariant yields, on success, empty options and parameters. -/
theorem parseFrom_noOpt (p : Parser) (hq : p.optPfx = '"') (l : List Char) :
    ∀ (n : Nat) (a : Acc) (cmd : Command), noOptInv a →
      p.parseFrom l n a = Except.ok cmd → cmd.options = [] ∧ cmd.parameters = [] := by
  induction l with
  | nil =>
    intro n a cmd hJ h
    simp only [Parser.parseFrom] at h
    injection h with h
    subst h
    exact ⟨hJ.2.2.2.2.2.1, hJ.2.2.2.2.2.2⟩
  | cons c cs ih =>
    intro n a cmd hJ h
    simp only [Parser.parseFrom] at h
    cases hs : step p a n c with
    | error e =>
      rw [hs] at h
      exact (Except.noConfusion h)
    | ok a2 =>
      rw [hs] at h
      exact ih (n + 1) a2 cmd (step_noOptInv p hq a a2 n c hJ hs) h

/-- Claim C1: with command prefix `!` and option prefix `-`, parsing
`!foo arg1 "long arg 2" -opt -opt -key1:val1 -key2:"long val2"` succeeds and
returns the command named `foo` with arguments `arg1` and `long arg 2` in that
order, the single option `opt` (the repeated flag collapses), and parameters
binding `key1` to `val1` and `key2` to `long val2`. -/
theorem parse_scenario_a :
    (Parser.mk '!' '-').parse "!foo arg1 \"long arg 2\" -opt -opt -key1:val1 -key2:\"long val2\"" =
      Except.ok (Command.mk '!' '-' "foo" ["arg1", "long arg 2"] ["opt"]
        [("key1", "val1"), ("key2", "long val2")]) := by
  rfl

/-- Claim C9: for every parser configuration, parsing the empty string
succeeds and returns a command carrying the configured prefix characters, an
empty name, and empty arguments, options and parameters. -/
theorem parse_empty_string (p : Parser) :
    p.parse "" = Except.ok (Command.mk p.pfx p.optPfx "" [] [] []) := by
  rfl

/-- Claim C3: at end of the character stream the returned command is built
from the committed accumulators only, whatever the transient buffer and key
buffer hold (first conjunct); hence `!foo -opt`, whose trailing unquoted flag
is still buffered when the stream ends, parses to empty options (second
conjunct); a quoted argument, by contrast, is committed immediately on its
closing quote (third conjunct), so it is never dropped. -/
theorem trailing_buffer_discarded :
    (∀ (p : Parser) (n : Nat) (nm : String) (args os : List String)
       (ps : List (String × String)) (st : ParseState) (buf kb : String),
       p.parseFrom [] n (Acc.mk nm args os ps st buf kb) =
         Except.ok (Command.mk p.pfx p.optPfx nm args os ps)) ∧
    (Parser.mk '!' '-').parse "!foo -opt" =
      Except.ok (Command.mk '!' '-' "foo" [] [] []) ∧
    (∀ (p : Parser) (n : Nat) (nm : String) (args os : List String)
       (ps : List (String × String)) (buf kb : String),
       step p (Acc.mk nm args os ps ParseState.LongArgument buf kb) n '"' =
         Except.ok (Acc.mk nm (args ++ [buf]) os ps ParseState.Default "" kb)) := by
  refine ⟨fun p n nm args os ps st buf kb => rfl, rfl, fun p n nm args os ps buf kb => rfl⟩

/-- Claim C4, counterexample: parsing `!x -k:1 -k:2` (no trailing space) with
prefix `!` and option prefix `-` leaves the second parameter token
uncommitted in the buffer at end of stream, so the parameters map binds `k`
to `1`, not to `2` as the claim asserts. -/
theorem param_duplicate_key_counterexample :
    (Parser.mk '!' '-').parse "!x -k:1 -k:2" =
      Except.ok (Command.mk '!' '-' "x" [] [] [("k", "1")]) ∧
    lookupMap [("k", "1")] "k" ≠ some "2" := by
  exact ⟨rfl, by decide⟩

/-- Claim C4, amended: repeated parameter keys keep only the last committed
value — inserting a binding always makes lookup of that key return the new
value, overwriting any earlier occurrence (first conjunct) — and parsing
`!x -k:1 -k:2 ` (with a trailing space, so the second token is committed)
yields the parameters map binding `k` to `2` (second conjunct). -/
theorem param_last_write_wins :
    (∀ (m : List (String × String)) (k v : String),
       lookupMap (insertMap m k v) k = some v) ∧
    (Parser.mk '!' '-').parse "!x -k:1 -k:2 " =
      Except.ok (Command.mk '!' '-' "x" [] [] [("k", "2")]) := by
  exact ⟨lookupMap_insertMap, rfl⟩

/-- Claim C5: for every non-empty input whose first character is not the
configured prefix, parsing fails with a `PrefixError` carrying position 0 and
that first character. -/
theorem parse_wrong_first_char (p : Parser) (raw : String) (c : Char) (cs : List Char)
    (hdata : raw.data = c :: cs) (hne : c ≠ p.pfx) :
    p.parse raw = Except.error (ParseError.PrefixError 0 c) := by
  unfold Parser.parse
  rw [hdata]
  simp [Parser.parseFrom, step, initAcc, hne]

/-- Witness for claim C5: with prefix `!`, the input `just a normal sentence`
fails with a `PrefixError` at position 0 carrying `j`. -/
theorem parse_wrong_first_char_witness :
    (Parser.mk '!' '-').parse "just a normal sentence" =
      Except.error (ParseError.PrefixError 0 'j') :=
  parse_wrong_first_char (Parser.mk '!' '-') "just a normal sentence" 'j'
    "ust a normal sentence".data rfl (by decide)

/-- Claim C7: inside a quoted token, a backslash enters the escape state, and
from it the characters `"` and `\` are appended as themselves, returning to
the quoted state — so the two-character sequences decode to the single
characters (first conjunct); end to end, parsing `!x "a\"b\\c"` yields the
single argument `a"b\c` (second conjunct). -/
theorem escape_roundtrip :
    (∀ (p : Parser) (n m : Nat) (nm : String) (args os : List String)
       (ps : List (String × String)) (buf kb : String),
       step p (Acc.mk nm args os ps ParseState.LongArgument buf kb) n '\\' =
         Except.ok (Acc.mk nm args os ps ParseState.EscapeLongArg buf kb) ∧
       step p (Acc.mk nm args os ps ParseState.EscapeLongArg buf kb) m '"' =
         Except.ok (Acc.mk nm args os ps ParseState.LongArgument (buf.push '"') kb) ∧
       step p (Acc.mk nm args os ps ParseState.EscapeLongArg buf kb) m '\\' =
         Except.ok (Acc.mk nm args os ps ParseState.LongArgument (buf.push '\\') kb)) ∧
    (Parser.mk '!' '-').parse "!x \"a\\\"b\\\\c\"" =
      Except.ok (Command.mk '!' '-' "x" ["a\"b\\c"] [] []) := by
  refine ⟨fun p n m nm args os ps buf kb => ⟨rfl, rfl, rfl⟩, rfl⟩

/-- Claim C8: outside quotes the space character is the sole token separator.
In the `Argument` state a space flushes the buffered token and every other
character — including `"`, `:` and the option prefix — is appended literally
(first conjunct); in the `Option` state a space flushes the flag and, apart
from the first `:` which turns the token into a parameter key, every other
character is appended (second conjunct); in the `ParamVal` state a space
commits the parameter and every other character, `:` included, is appended
(third conjunct); and in the `Default` state a space is skipped, leaving the
accumulator unchanged, so runs of spaces produce no empty tokens (fourth
conjunct). -/
theorem space_sole_separator :
    (∀ (p : Parser) (n : Nat) (c : Char) (nm : String) (args os : List String)
       (ps : List (String × String)) (buf kb : String),
       step p (Acc.mk nm args os ps ParseState.Argument buf kb) n c =
         if c = ' ' then
           Except.ok (Acc.mk nm (args ++ [buf]) os ps ParseState.Default "" kb)
         else Except.ok (Acc.mk nm args os ps ParseState.Argument (buf.push c) kb)) ∧
    (∀ (p : Parser) (n : Nat) (c : Char) (nm : String) (args os : List String)
       (ps : List (String × String)) (buf kb : String),
       step p (Acc.mk nm args os ps ParseState.Option buf kb) n c =
         if c = ' ' then
           Except.ok (Acc.mk nm args (insertSet os buf) ps ParseState.Default "" kb)
         else if c = ':' then
           Except.ok (Acc.mk nm args os ps ParseState.ParamConnector "" buf)
         else Except.ok (Acc.mk nm args os ps ParseState.Option (buf.push c) kb)) ∧
    (∀ (p : Parser) (n : Nat) (c : Char) (nm : String) (args os : List String)
       (ps : List (String × String)) (buf kb : String),
       step p (Acc.mk nm args os ps ParseState.ParamVal buf kb) n c =
         if c = ' ' then
           Except.ok (Acc.mk nm args os (insertMap ps kb buf) ParseState.Default "" "")
         else Except.ok (Acc.mk nm args os ps ParseState.ParamVal (buf.push c) kb)) ∧
    (∀ (p : Parser) (n : Nat) (nm : String) (args os : List String)
       (ps : List (String × String)) (buf kb : String),
       step p (Acc.mk nm args os ps ParseState.Default buf kb) n ' ' =
         Except.ok (Acc.mk nm args os ps ParseState.Default buf kb)) := by
  refine ⟨fun p n c nm args os ps buf kb => rfl, fun p n c nm args os ps buf kb => rfl,
    fun p n c nm args os ps buf kb => rfl, fun p n nm args os ps buf kb => rfl⟩

/-- Claim C2, counterexample: parsing the one-character input `!` (the bare
prefix) succeeds and the returned command's name is the empty string, so a
successful parse can represent an empty name. -/
theorem parse_empty_name_counterexample :
    (Parser.mk '!' '-').parse "!" = Except.ok (Command.mk '!' '-' "" [] [] []) ∧
    (Command.mk '!' '-' "" [] [] []).name = "" := by
  exact ⟨rfl, rfl⟩

/-- Claim C2, amended: for every parser configuration and every input of at
least two characters, if parsing succeeds then the returned command's name is
non-empty; a space immediately after the prefix is rejected with `NameError`
during parsing, and on shorter inputs (the empty string and the bare prefix)
the name never receives a character. -/
theorem parse_ok_name_nonempty (p : Parser) (raw : String) (cmd : Command)
    (hlen : 2 ≤ raw.length) (h : p.parse raw = Except.ok cmd) : cmd.name ≠ "" := by
  intro hname
  have hJ : nameInv initAcc 0 :=
    ⟨fun _ => rfl, fun hx _ => (nomatch hx), fun hP _ => absurd rfl hP⟩
  have hb := parseFrom_name_bound p raw.data 0 initAcc cmd hJ h hname
  have hl : raw.length = raw.data.length := rfl
  omega

/-- Witness for the amended claim C2: the three-character input `!ab` parses
successfully and its name `ab` is non-empty. -/
theorem parse_ok_name_nonempty_witness :
    2 ≤ ("!ab" : String).length ∧ (Command.mk '!' '-' "ab" [] [] []).name ≠ "" :=
  ⟨by decide, parse_ok_name_nonempty (Parser.mk '!' '-') "!ab"
    (Command.mk '!' '-' "ab" [] [] []) (by decide) rfl⟩

/-- Claim C6: in either escape state — inside a quoted long argument or a
quoted long parameter value — a character other than `"` and `\` after the
backslash aborts the step with an `EscapeError` carrying the current cursor
position and that character, and the surrounding loop propagates exactly that
error, so the whole parse fails with it. -/
theorem escape_invalid_char (p : Parser) (a : Acc) (n : Nat) (c : Char) (cs : List Char)
    (hst : a.state = ParseState.EscapeLongArg ∨ a.state = ParseState.EscapeLongParamVal)
    (hq : c ≠ '"') (hb : c ≠ '\\') :
    step p a n c = Except.error (ParseError.EscapeError n c) ∧
    p.parseFrom (c :: cs) n a = Except.error (ParseError.EscapeError n c) := by
  have hstep : step p a n c = Except.error (ParseError.EscapeError n c) := by
    obtain ⟨nm, args, os, ps, st, buf, kb⟩ := a
    rcases hst with hst | hst
    · have hst2 : st = ParseState.EscapeLongArg := hst
      subst hst2
      dsimp only [step]
      rw [if_neg (not_or.mpr ⟨hq, hb⟩)]
    · have hst2 : st = ParseState.EscapeLongParamVal := hst
      subst hst2
      dsimp only [step]
      rw [if_neg (not_or.mpr ⟨hq, hb⟩)]
  refine ⟨hstep, ?_⟩
  simp only [Parser.parseFrom, hstep]

/-- Witness for claim C6: after `!x "a` the machine is in the long-argument
escape state at cursor 6; the character `n` there fails the step, and the
remaining stream `nb"` fails the loop, with `EscapeError` at position 6
carrying `n` — matching the parse of the full input `!x "a\nb"`. -/
theorem escape_invalid_char_witness :
    step (Parser.mk '!' '-') (Acc.mk "x" [] [] [] ParseState.EscapeLongArg "a" "") 6 'n' =
      Except.error (ParseError.EscapeError 6 'n') ∧
    (Parser.mk '!' '-').parseFrom ['n', 'b', '"'] 6
        (Acc.mk "x" [] [] [] ParseState.EscapeLongArg "a" "") =
      Except.error (ParseError.EscapeError 6 'n') :=
  escape_invalid_char (Parser.mk '!' '-')
    (Acc.mk "x" [] [] [] ParseState.EscapeLongArg "a" "") 6 'n' ['b', '"']
    (Or.inl rfl) (by decide) (by decide)

/-- Claim C10: when the configured option prefix is the quote character `"`,
the quote rule of the `Default` state fires first, so a token opening with
`"` always starts a quoted long argument (first conjunct), the `Option` state
is never entered, and every successful parse returns empty options and empty
parameters (second conjunct). -/
theorem quote_option_prefix_no_options (p : Parser) (hq : p.optPfx = '"') :
    (∀ (a : Acc) (n : Nat), a.state = ParseState.Default →
       step p a n '"' = Except.ok { a with state := ParseState.LongArgument }) ∧
    (∀ (raw : String) (cmd : Command), p.parse raw = Except.ok cmd →
       cmd.options = [] ∧ cmd.parameters = []) := by
  constructor
  · intro a n hst
    obtain ⟨nm, args, os, ps, st, buf, kb⟩ := a
    have hst2 : st = ParseState.Default := hst
    subst hst2
    rfl
  · intro raw cmd h
    have hJ : noOptInv initAcc :=
      ⟨fun hx => (nomatch hx), fun hx => (nomatch hx), fun hx => (nomatch hx),
        fun hx => (nomatch hx), fun hx => (nomatch hx), rfl, rfl⟩
    exact parseFrom_noOpt p hq raw.data 0 initAcc cmd hJ h

/-- Witness for claim C10: the parser configured with option prefix `"`
parses `!foo "a b"` to a command whose options and parameters are empty. -/
theorem quote_option_prefix_no_options_witness :
    (Command.mk '!' '"' "foo" ["a b"] [] []).options = [] ∧
    (Command.mk '!' '"' "foo" ["a b"] [] []).parameters = [] :=
  (quote_option_prefix_no_options (Parser.mk '!' '"') rfl).2 "!foo \"a b\""
    (Command.mk '!' '"' "foo" ["a b"] [] []) rfl

end CommandParser
